import Mathlib

/-!
Verification of the extension orchestration pipeline of `extend.py`
(qmusiclooper): argument validation and normalization (`get_args`),
engine invocation, conditional M4A transcoding, metadata and timestamp
propagation, and cleanup of the intermediate artifact (`main`).

Modelling conventions:
* Python floats are modelled as rationals (`ℚ`); the claims at issue only
  involve equality with zero and sign, which rationals represent exactly.
* `pathlib.Path` values are modelled by `PyPath`: a parent path plus a
  final-component name (a list of characters).  `PyPath.suffix` and
  `PyPath.with_suffix` follow the `pathlib` semantics used by the source
  (suffix = segment from the last dot of the name, provided that dot is
  neither the first nor the last character).
* The external collaborators (Loop Extension Engine, ffmpeg encoder,
  `copy_metadata`, `copy_filedate`, `unlink`) are parameters of the model
  (`Collab`): the engine is an arbitrary function from its parameters to
  the raw output path, and each effectful step has an outcome field.
* `main` returns the ordered list of collaborator invocations it performed
  (`PipeEvent`) together with either the final output path or the first
  uncaught error, mirroring the source's sequencing and exception flow.
-/

/-- Model of `pathlib.Path`: either a rootish path with empty final name, or
a parent path plus a non-root final component. -/
inductive PyPath where
  | root : PyPath
  | child : PyPath → List Char → PyPath
deriving DecidableEq

/-- Python `Path.name`: the final component (empty for the root). -/
def PyPath.name : PyPath → List Char
  | .root => []
  | .child _ n => n

/-- Python `Path.parent`. -/
def PyPath.parent : PyPath → PyPath
  | .root => .root
  | .child p _ => p

/-- Index of the last '.' in a name (`str.rfind('.')` when a dot exists). -/
def rfindDot : List Char → Option Nat
  | [] => none
  | c :: cs =>
    match rfindDot cs with
    | some i => some (i + 1)
    | none => if c = '.' then some 0 else none

/-- The `pathlib` suffix of a name: the segment from the last dot, provided the
dot is neither the first nor the last character of the name. -/
def nameSuffix (name : List Char) : List Char :=
  match rfindDot name with
  | none => []
  | some i => if 0 < i ∧ i < name.length - 1 then name.drop i else []

/-- Python `Path.suffix`. -/
def PyPath.suffix (p : PyPath) : List Char :=
  nameSuffix p.name

/-- Python `Path.with_suffix`: `none` models the `ValueError` raised on an invalid
suffix or an empty name. -/
def PyPath.with_suffix : PyPath → List Char → Option PyPath
  | .root, _ => none
  | .child p n, s =>
    if s.contains '/' then none
    else if (s ≠ [] ∧ s.head? ≠ some '.') ∨ s = ['.'] then none
    else if n = [] then none
    else
      let old := nameSuffix n
      some (.child p (if old = [] then n ++ s else n.take (n.length - old.length) ++ s))

/-- The audio formats admitted by the `--format` option (`choices`). -/
inductive AudioFormat where
  | WAV | FLAC | OGG | MP3 | M4A
deriving DecidableEq

/-- The string value of a format option (argparse stores the uppercase
string). -/
def AudioFormat.str : AudioFormat → String
  | .WAV => "WAV"
  | .FLAC => "FLAC"
  | .OGG => "OGG"
  | .MP3 => "MP3"
  | .M4A => "M4A"

/-- Modelled from the spec and the glossary: WAV and FLAC are lossless
containers/codecs; OGG (Vorbis), MP3 and M4A (AAC) are lossy.  Used only to
state the spec's "lossless intermediate format" claim. -/
def AudioFormat.isLossless : AudioFormat → Bool
  | .WAV => true
  | .FLAC => true
  | .OGG => false
  | .MP3 => false
  | .M4A => false

/-- The command-line namespace as parsed by argparse, before the
normalization and validation performed in `get_args` (`output_dir` is still
optional). -/
structure ParsedArgs where
  input_file_path : PyPath
  extended_length : ℚ
  output_dir : Option PyPath
  min_duration_multiplier : ℚ := 35 / 100
  fade_length : Option ℚ := none
  brute_force : Bool := false
  show_progress_bar : Bool := false
  format : AudioFormat := .M4A
  interactive : Bool := false
deriving DecidableEq

/-- The `ProgramArgsNamespace` after `get_args` returns: `output_dir` resolved. -/
structure ProgramArgsNamespace where
  input_file_path : PyPath
  extended_length : ℚ
  output_dir : PyPath
  min_duration_multiplier : ℚ
  fade_length : Option ℚ
  brute_force : Bool
  show_progress_bar : Bool
  format : AudioFormat
  interactive : Bool
deriving DecidableEq

/-- The two `ArgumentError` conditions raised by `get_args`. -/
inductive ArgError where
  | fadeLengthZero
  | oggNotSupported
deriving DecidableEq

/-- Model of `get_args` after argparse: resolves the output-directory default, rejects
`fade_length == 0`, rejects OGG on Windows, and finally sets the
`PML_INTERACTIVE_MODE` environment flag (the returned `Bool`) when
interactive mode was requested. -/
def get_args (platform : String) (args : ParsedArgs) :
    Except ArgError (ProgramArgsNamespace × Bool) :=
  let output_dir : PyPath :=
    match args.output_dir with
    | none => args.input_file_path.parent
    | some d => d
  if args.fade_length = some (0 : ℚ) then
    .error .fadeLengthZero
  else if args.format = AudioFormat.OGG ∧ platform = "windows" then
    .error .oggNotSupported
  else
    .ok ({ input_file_path := args.input_file_path
           extended_length := args.extended_length
           output_dir := output_dir
           min_duration_multiplier := args.min_duration_multiplier
           fade_length := args.fade_length
           brute_force := args.brute_force
           show_progress_bar := args.show_progress_bar
           format := args.format
           interactive := args.interactive }, args.interactive)

/-- Python's `args.fade_length or 0`: `None` and the falsy `0.0` both give
`0`; any other value passes through. -/
def pyOrZero (x : Option ℚ) : ℚ :=
  match x with
  | none => 0
  | some v => if v = 0 then 0 else v

/-- The keyword arguments `main` passes to `LoopExportHandler`. -/
structure EngineParams where
  path : PyPath
  output_dir : PyPath
  min_duration_multiplier : ℚ
  extended_length : ℚ
  fade_length : ℚ
  disable_fade_out : Bool
  batch_mode : Bool
  brute_force : Bool
  format : AudioFormat
deriving DecidableEq

/-- The format handed to the engine: the requested format when it is one of
WAV/FLAC/OGG/MP3, and WAV otherwise (source lines 118-122). -/
def engineFormatOf (f : AudioFormat) : AudioFormat :=
  if f ∈ [AudioFormat.WAV, AudioFormat.FLAC, AudioFormat.OGG, AudioFormat.MP3] then f
  else AudioFormat.WAV

/-- The `LoopExportHandler` construction in `main` (source lines 123-133). -/
def engineParamsOf (args : ProgramArgsNamespace) : EngineParams :=
  { path := args.input_file_path
    output_dir := args.output_dir
    min_duration_multiplier := args.min_duration_multiplier
    extended_length := args.extended_length
    fade_length := pyOrZero args.fade_length
    disable_fade_out := args.fade_length.isNone
    batch_mode := !args.show_progress_bar
    brute_force := args.brute_force
    format := engineFormatOf args.format }

/-- Outcome of the `copy_metadata` call: success, an `UnsupportedFormat`
exception (the only one caught), or any other exception. -/
inductive MetaOutcome where
  | ok
  | unsupportedFormat
  | otherError
deriving DecidableEq

/-- Behaviour of the external collaborators for one run. -/
structure Collab where
  runner_output : EngineParams → PyPath
  encode_ok : Bool
  metadata : MetaOutcome
  filedate_ok : Bool
  unlink_ok : Bool

/-- The observable collaborator invocations of one run, in order. -/
inductive PipeEvent where
  | engineCall : EngineParams → PipeEvent
  | encodeCall : PyPath → PyPath → PipeEvent
  | metadataCopy : PyPath → PyPath → PipeEvent
  | metadataWarnLogged : PipeEvent
  | filedateCopy : PyPath → PyPath → PipeEvent
  | unlink : PyPath → PipeEvent
deriving DecidableEq

/-- The uncaught exceptions that can abort `main`. -/
inductive PipelineError where
  | valueError
  | encodeError
  | metadataError
  | filedateError
  | unlinkError
deriving DecidableEq

/-- The conditional M4A transcode (source lines 135-154): for M4A the output
path is the raw path with suffix `"." + format.lower()` and ffmpeg is run;
otherwise the raw path is the output path and nothing is invoked. -/
def convertPhase (c : Collab) (args : ProgramArgsNamespace) (raw_output_path : PyPath) :
    List PipeEvent × Except PipelineError PyPath :=
  if args.format = AudioFormat.M4A then
    match raw_output_path.with_suffix ('.' :: (args.format.str.toList.map Char.toLower)) with
    | none => ([], .error .valueError)
    | some output_path =>
      if c.encode_ok then ([.encodeCall raw_output_path output_path], .ok output_path)
      else ([.encodeCall raw_output_path output_path], .error .encodeError)
  else
    ([], .ok raw_output_path)

/-- Metadata copy (with only `UnsupportedFormat` caught and logged), then the
unguarded `copy_filedate`, then `unlink` of the raw path when it differs from
the output path (source lines 156-169). -/
def postPhase (c : Collab) (input_path output_path raw_output_path : PyPath) :
    List PipeEvent × Except PipelineError PyPath :=
  let tag : List PipeEvent × Option PipelineError :=
    match c.metadata with
    | .ok => ([.metadataCopy input_path output_path], none)
    | .unsupportedFormat =>
        ([.metadataCopy input_path output_path, .metadataWarnLogged], none)
    | .otherError => ([.metadataCopy input_path output_path], some .metadataError)
  match tag with
  | (evs, some e) => (evs, .error e)
  | (evs, none) =>
    let evs := evs ++ [.filedateCopy input_path output_path]
    if c.filedate_ok = false then (evs, .error .filedateError)
    else if output_path ≠ raw_output_path then
      let evs := evs ++ [.unlink raw_output_path]
      if c.unlink_ok then (evs, .ok output_path) else (evs, .error .unlinkError)
    else
      (evs, .ok output_path)

/-- Model of `main` (source lines 115-169): engine call, conditional transcode,
metadata/timestamp propagation, cleanup. -/
def mainRun (c : Collab) (args : ProgramArgsNamespace) :
    List PipeEvent × Except PipelineError PyPath :=
  let input_path := args.input_file_path
  let params := engineParamsOf args
  let raw_output_path := c.runner_output params
  match convertPhase c args raw_output_path with
  | (evs, .error e) => (PipeEvent.engineCall params :: evs, .error e)
  | (evs, .ok output_path) =>
    let post := postPhase c input_path output_path raw_output_path
    (PipeEvent.engineCall params :: evs ++ post.1, post.2)

/-- A whole run: validation error means no engine call and no artifacts. -/
inductive ProgramError where
  | validation : ArgError → ProgramError
  | pipeline : PipelineError → ProgramError
deriving DecidableEq

/-- The `__main__` block: `get_args` then `main`. -/
def program (platform : String) (c : Collab) (parsed : ParsedArgs) :
    List PipeEvent × Except ProgramError PyPath :=
  match get_args platform parsed with
  | .error e => ([], .error (.validation e))
  | .ok (args, _) =>
    match mainRun c args with
    | (evs, .ok out) => (evs, .ok out)
    | (evs, .error e) => (evs, .error (.pipeline e))

/-! ### Concrete fixtures used by witnesses -/

/-- A sample input file `song.wav` under the root. -/
def samplePath : PyPath := PyPath.child PyPath.root ['s', 'o', 'n', 'g', '.', 'w', 'a', 'v']

/-- A sample raw artifact `ext.wav` returned by the engine. -/
def sampleRaw : PyPath := PyPath.child PyPath.root ['e', 'x', 't', '.', 'w', 'a', 'v']

/-- Collaborators that all succeed, with the engine returning `sampleRaw`. -/
def sampleCollab : Collab :=
  { runner_output := fun _ => sampleRaw
    encode_ok := true
    metadata := .ok
    filedate_ok := true
    unlink_ok := true }

/-- A minimal parsed command line: `song.wav -l 180` with every default. -/
def sampleParsed : ParsedArgs :=
  { input_file_path := samplePath
    extended_length := 180
    output_dir := none }

/-- The resolved namespace produced by `get_args` on `sampleParsed`. -/
def sampleResolved : ProgramArgsNamespace :=
  { input_file_path := samplePath
    extended_length := 180
    output_dir := samplePath.parent
    min_duration_multiplier := 35 / 100
    fade_length := none
    brute_force := false
    show_progress_bar := false
    format := .M4A
    interactive := false }

/-! ### Helper lemmas on suffixes -/

lemma rfindDot_eq_none (l : List Char) (h : '.' ∉ l) : rfindDot l = none := by
  induction l with
  | nil => rfl
  | cons c cs ih =>
    simp only [List.mem_cons, not_or] at h
    have hc : ¬ c = '.' := fun hc => h.1 hc.symm
    simp [rfindDot, ih h.2, hc]

lemma rfindDot_append_dot (pre rest : List Char) (h : '.' ∉ rest) :
    rfindDot (pre ++ '.' :: rest) = some pre.length := by
  induction pre with
  | nil => simp [rfindDot, rfindDot_eq_none rest h]
  | cons c cs ih => simp [rfindDot, ih]

lemma nameSuffix_append_m4a (pre : List Char) (h : pre ≠ []) :
    nameSuffix (pre ++ ['.', 'm', '4', 'a']) = ['.', 'm', '4', 'a'] := by
  have hd : rfindDot (pre ++ ['.', 'm', '4', 'a']) = some pre.length :=
    rfindDot_append_dot pre ['m', '4', 'a'] (by decide)
  have hp : 0 < pre.length := List.length_pos.mpr h
  simp only [nameSuffix, hd]
  rw [if_pos ⟨hp, by simp [List.length_append]⟩]
  exact List.drop_left pre _

lemma nameSuffix_spec (n : List Char) (h : nameSuffix n ≠ []) :
    ∃ i, rfindDot n = some i ∧ 0 < i ∧ i < n.length - 1 ∧ nameSuffix n = n.drop i := by
  cases hr : rfindDot n with
  | none => exact absurd (by simp [nameSuffix, hr]) h
  | some i =>
    by_cases hc : 0 < i ∧ i < n.length - 1
    · exact ⟨i, rfl, hc.1, hc.2, by simp [nameSuffix, hr, hc]⟩
    · exact absurd (by simp [nameSuffix, hr, hc]) h

lemma with_suffix_m4a_props (p : PyPath) (n : List Char) (hn : n ≠ [])
    (hs : nameSuffix n ≠ ['.', 'm', '4', 'a']) :
    ∃ w, PyPath.with_suffix (.child p n) ['.', 'm', '4', 'a'] = some (.child p w) ∧
      w ≠ n ∧ nameSuffix w = ['.', 'm', '4', 'a'] := by
  by_cases h0 : nameSuffix n = []
  · refine ⟨n ++ ['.', 'm', '4', 'a'], ?_, ?_, ?_⟩
    · simp only [PyPath.with_suffix]
      rw [if_neg (by decide), if_neg (by decide), if_neg hn]
      simp [h0]
    · intro he
      have := congrArg List.length he
      simp at this
    · exact nameSuffix_append_m4a n hn
  · obtain ⟨i, hr, hip, hil, hdrop⟩ := nameSuffix_spec n h0
    have hlen : (nameSuffix n).length = n.length - i := by
      rw [hdrop]; exact List.length_drop i n
    have htake : n.take (n.length - (nameSuffix n).length) = n.take i := by
      rw [hlen]; congr 1; omega
    have hsplit : n.take i ++ n.drop i = n := List.take_append_drop i n
    refine ⟨n.take i ++ ['.', 'm', '4', 'a'], ?_, ?_, ?_⟩
    · simp only [PyPath.with_suffix]
      rw [if_neg (by decide), if_neg (by decide), if_neg hn]
      simp [h0, htake]
    · intro he
      have heq : n.take i ++ ['.', 'm', '4', 'a'] = n.take i ++ n.drop i := by
        rw [he]; exact hsplit.symm
      have h4 := List.append_cancel_left heq
      exact hs (by rw [hdrop, ← h4])
    · apply nameSuffix_append_m4a
      intro ht
      rw [ht] at hsplit
      have hlen2 := congrArg List.length hsplit
      simp [List.length_drop] at hlen2
      omega

/-! ### Claim theorems -/

/-- C4: a request whose fade length equals exactly 0 makes `get_args` fail
with a validation error, so the whole program performs no collaborator
invocation (no engine call, no artifacts). -/
theorem spec_c4_zero_fade_rejected (platform : String) (c : Collab) (parsed : ParsedArgs)
    (h : parsed.fade_length = some 0) :
    get_args platform parsed = .error .fadeLengthZero ∧
      program platform c parsed = ([], .error (.validation .fadeLengthZero)) := by
  have hga : get_args platform parsed = .error .fadeLengthZero := by
    simp [get_args, h]
  exact ⟨hga, by simp [program, hga]⟩

/-- C4 witness: the concrete command line `song.wav -l 180 --fade-length 0`. -/
theorem spec_c4_zero_fade_rejected_witness :
    get_args "linux" { sampleParsed with fade_length := some 0 } = .error .fadeLengthZero ∧
      program "linux" sampleCollab { sampleParsed with fade_length := some 0 } =
        ([], .error (.validation .fadeLengthZero)) :=
  spec_c4_zero_fade_rejected "linux" sampleCollab _ rfl

/-- C5: a request with format OGG on the platform without OGG encoder support
(Windows, in the source's check) makes `get_args` fail with a validation
error before any collaborator is invoked. -/
theorem spec_c5_ogg_windows_rejected (c : Collab) (parsed : ParsedArgs)
    (h : parsed.format = AudioFormat.OGG) :
    ∃ e, get_args "windows" parsed = .error e ∧
      program "windows" c parsed = ([], .error (.validation e)) := by
  by_cases hf : parsed.fade_length = some (0 : ℚ)
  · refine ⟨.fadeLengthZero, ?_, ?_⟩ <;> simp [program, get_args, hf]
  · refine ⟨.oggNotSupported, ?_, ?_⟩ <;> simp [program, get_args, hf, h]

/-- C5 witness: the concrete command line `song.wav -l 180 -f OGG` on
Windows. -/
theorem spec_c5_ogg_windows_rejected_witness :
    ∃ e, get_args "windows" { sampleParsed with format := .OGG } = .error e ∧
      program "windows" sampleCollab { sampleParsed with format := .OGG } =
        ([], .error (.validation e)) :=
  spec_c5_ogg_windows_rejected sampleCollab _ rfl

/-- C8: when `get_args` succeeds, the resolved output directory is the
input file's parent when the caller left it unset, and the caller's value
unchanged otherwise. -/
theorem spec_c8_output_dir_default (platform : String) (parsed : ParsedArgs)
    (args : ProgramArgsNamespace) (env : Bool)
    (h : get_args platform parsed = .ok (args, env)) :
    args.output_dir =
      match parsed.output_dir with
      | none => parsed.input_file_path.parent
      | some d => d := by
  by_cases h1 : parsed.fade_length = some (0 : ℚ)
  · simp [get_args, h1] at h
  · by_cases h2 : parsed.format = AudioFormat.OGG ∧ platform = "windows"
    · simp [get_args, h1, h2] at h
    · simp [get_args, h1, h2] at h
      rw [← h.1]

/-- C8 witness: `song.wav -l 180` without `-o` resolves the output directory
to the parent of `song.wav`. -/
theorem spec_c8_output_dir_default_witness :
    get_args "linux" sampleParsed = .ok (sampleResolved, false) ∧
      sampleResolved.output_dir = sampleParsed.input_file_path.parent := by
  have h : get_args "linux" sampleParsed = .ok (sampleResolved, false) := by rfl
  exact ⟨h, spec_c8_output_dir_default "linux" sampleParsed sampleResolved false h⟩

/-- C6: the engine call receives `disable_fade_out` true exactly when the
fade length is absent, the fade length itself defaulted to 0 when absent,
`batch_mode` as the negation of the progress-display flag, and the
brute-force flag and minimum-duration multiplier unchanged; and the engine
call with exactly these parameters is the first collaborator invocation of
`mainRun`. -/
theorem spec_c6_engine_arguments (c : Collab) (args : ProgramArgsNamespace) :
    (engineParamsOf args).disable_fade_out = args.fade_length.isNone ∧
    (engineParamsOf args).fade_length = args.fade_length.getD 0 ∧
    (engineParamsOf args).batch_mode = !args.show_progress_bar ∧
    (engineParamsOf args).brute_force = args.brute_force ∧
    (engineParamsOf args).min_duration_multiplier = args.min_duration_multiplier ∧
    (mainRun c args).1.head? = some (.engineCall (engineParamsOf args)) := by
  refine ⟨rfl, ?_, rfl, rfl, rfl, ?_⟩
  · show pyOrZero args.fade_length = args.fade_length.getD 0
    cases h : args.fade_length with
    | none => rfl
    | some v =>
      by_cases hv : v = 0
      · simp [pyOrZero, hv]
      · simp [pyOrZero, hv]
  · cases hc : convertPhase c args (c.runner_output (engineParamsOf args)) with
    | mk evs r => cases r <;> simp [mainRun, hc]

/-- C9: the Loop Extension Engine receives format WAV when the request asks
for M4A, and the requested format itself in every other case. -/
theorem spec_c9_engine_format (args : ProgramArgsNamespace) :
    (engineParamsOf args).format =
      if args.format = AudioFormat.M4A then AudioFormat.WAV else args.format := by
  show engineFormatOf args.format = _
  cases args.format <;> rfl

/-- C10: a strictly negative fade length passes validation (given the
OGG-on-Windows check does not fire), is kept on the resolved namespace,
yields `disable_fade_out = false`, and is forwarded unchanged to the
engine. -/
theorem spec_c10_negative_fade_accepted (platform : String) (parsed : ParsedArgs) (v : ℚ)
    (hv : parsed.fade_length = some v) (hneg : v < 0)
    (hogg : ¬(parsed.format = AudioFormat.OGG ∧ platform = "windows")) :
    ∃ args env, get_args platform parsed = .ok (args, env) ∧
      args.fade_length = some v ∧
      (engineParamsOf args).disable_fade_out = false ∧
      (engineParamsOf args).fade_length = v := by
  have hvne : v ≠ 0 := ne_of_lt hneg
  have h0 : ¬ parsed.fade_length = some (0 : ℚ) := by
    rw [hv]
    intro h
    exact hvne (Option.some_injective ℚ h)
  refine ⟨{ input_file_path := parsed.input_file_path
            extended_length := parsed.extended_length
            output_dir := match parsed.output_dir with
              | none => parsed.input_file_path.parent
              | some d => d
            min_duration_multiplier := parsed.min_duration_multiplier
            fade_length := parsed.fade_length
            brute_force := parsed.brute_force
            show_progress_bar := parsed.show_progress_bar
            format := parsed.format
            interactive := parsed.interactive }, parsed.interactive, ?_, ?_, ?_, ?_⟩
  · simp [get_args, h0, hogg]
  · exact hv
  · simp [engineParamsOf, hv]
  · show pyOrZero parsed.fade_length = v
    rw [hv]
    simp [pyOrZero, hvne]

/-- C10 witness: `song.wav -l 180 --fade-length -1` on a non-Windows
platform is accepted and the engine receives fade length -1. -/
theorem spec_c10_negative_fade_accepted_witness :
    ∃ args env,
      get_args "linux" { sampleParsed with fade_length := some (-1) } = .ok (args, env) ∧
      args.fade_length = some (-1) ∧
      (engineParamsOf args).disable_fade_out = false ∧
      (engineParamsOf args).fade_length = -1 :=
  spec_c10_negative_fade_accepted "linux" _ (-1) rfl (by norm_num) (by decide)

/-- C2 counterexample: the claim "the format passed to the engine is always
lossless" fails on the concrete request `song.wav -l 180 -f MP3`: the engine
receives MP3, which is lossy. -/
theorem spec_c2_counterexample :
    ¬ ∀ args : ProgramArgsNamespace, ((engineParamsOf args).format).isLossless = true := by
  intro h
  have := h { sampleResolved with format := .MP3 }
  simp [engineParamsOf, engineFormatOf, AudioFormat.isLossless, sampleResolved] at this

/-- C2 amended: the format the orchestrator passes to the engine is lossless
exactly when the requested format is WAV, FLAC or M4A; for OGG and MP3
requests the engine receives that (lossy) format itself.  In particular the
intermediate artifact is lossless (WAV) whenever a transcode will follow. -/
theorem spec_c2_amended_lossless_iff (args : ProgramArgsNamespace) :
    ((engineParamsOf args).format).isLossless = true ↔
      (args.format = AudioFormat.WAV ∨ args.format = AudioFormat.FLAC ∨
        args.format = AudioFormat.M4A) := by
  show (engineFormatOf args.format).isLossless = true ↔ _
  cases args.format <;> decide

/-! ### Helper lemmas on `postPhase` -/

lemma postPhase_self_events (c : Collab) (i r : PyPath) :
    (postPhase c i r r).1 =
      (match c.metadata with
       | .ok => [PipeEvent.metadataCopy i r, PipeEvent.filedateCopy i r]
       | .unsupportedFormat =>
           [PipeEvent.metadataCopy i r, PipeEvent.metadataWarnLogged,
            PipeEvent.filedateCopy i r]
       | .otherError => [PipeEvent.metadataCopy i r]) := by
  rcases c with ⟨ro, eo, m, fo, uo⟩
  cases m <;> simp [postPhase, apply_ite]

lemma postPhase_self_no_encode (c : Collab) (i r a b : PyPath) :
    PipeEvent.encodeCall a b ∉ (postPhase c i r r).1 := by
  rw [postPhase_self_events]
  cases c.metadata <;> simp

lemma postPhase_self_no_unlink (c : Collab) (i r q : PyPath) :
    PipeEvent.unlink q ∉ (postPhase c i r r).1 := by
  rw [postPhase_self_events]
  cases c.metadata <;> simp

lemma postPhase_ok_out (c : Collab) (i o r x : PyPath)
    (h : (postPhase c i o r).2 = .ok x) : x = o := by
  unfold postPhase at h
  split at h
  case h_3 => simp at h
  all_goals (
    split at h
    · simp at h
    · split at h <;> (try split at h) <;> simp_all)

/-! ### Remaining claim theorems -/

/-- C3: when `copy_metadata` raises `UnsupportedFormat`, the exception is
caught and the warning logged, the filesystem timestamp copy is attempted
right after the tag copy regardless, the cleanup deletion still runs under
its own condition, and a timestamp-copy failure aborts the run as fatal.
The equation characterizes the whole tail of the pipeline in that case. -/
theorem spec_c3_unsupported_metadata_nonfatal (c : Collab)
    (input_path output_path raw_output_path : PyPath)
    (h : c.metadata = .unsupportedFormat) :
    postPhase c input_path output_path raw_output_path =
      (if c.filedate_ok = false then
        ([.metadataCopy input_path output_path, .metadataWarnLogged,
          .filedateCopy input_path output_path], .error .filedateError)
       else if output_path ≠ raw_output_path then
        ([.metadataCopy input_path output_path, .metadataWarnLogged,
          .filedateCopy input_path output_path, .unlink raw_output_path],
         if c.unlink_ok then .ok output_path else .error .unlinkError)
       else
        ([.metadataCopy input_path output_path, .metadataWarnLogged,
          .filedateCopy input_path output_path], .ok output_path)) := by
  simp only [postPhase, h]
  split_ifs <;> simp

/-- C3 witness: tag-copy failure on the concrete run with distinct output and
raw paths; timestamps are still copied and the raw file still deleted. -/
theorem spec_c3_unsupported_metadata_nonfatal_witness :
    postPhase { sampleCollab with metadata := .unsupportedFormat }
        samplePath (PyPath.child PyPath.root ['e', 'x', 't', '.', 'm', '4', 'a']) sampleRaw =
      ([.metadataCopy samplePath (PyPath.child PyPath.root ['e', 'x', 't', '.', 'm', '4', 'a']),
        .metadataWarnLogged,
        .filedateCopy samplePath (PyPath.child PyPath.root ['e', 'x', 't', '.', 'm', '4', 'a']),
        .unlink sampleRaw],
       .ok (PyPath.child PyPath.root ['e', 'x', 't', '.', 'm', '4', 'a'])) := by
  rw [spec_c3_unsupported_metadata_nonfatal _ _ _ _ rfl]
  rfl

/-- C7: for every request with format other than M4A the encoder is never
invoked, the run is the engine call followed by the propagation tail with
the raw path as final artifact, no deletion ever happens, and a successful
run returns exactly the raw path. -/
theorem spec_c7_non_m4a_no_transcode (c : Collab) (args : ProgramArgsNamespace)
    (h : args.format ≠ AudioFormat.M4A) :
    mainRun c args =
      (PipeEvent.engineCall (engineParamsOf args) ::
        (postPhase c args.input_file_path (c.runner_output (engineParamsOf args))
          (c.runner_output (engineParamsOf args))).1,
       (postPhase c args.input_file_path (c.runner_output (engineParamsOf args))
          (c.runner_output (engineParamsOf args))).2) ∧
    (∀ a b, PipeEvent.encodeCall a b ∉ (mainRun c args).1) ∧
    (∀ q, PipeEvent.unlink q ∉ (mainRun c args).1) ∧
    (∀ out, (mainRun c args).2 = .ok out → out = c.runner_output (engineParamsOf args)) := by
  have hconv : convertPhase c args (c.runner_output (engineParamsOf args)) =
      ([], .ok (c.runner_output (engineParamsOf args))) := by
    simp [convertPhase, h]
  have hmain : mainRun c args =
      (PipeEvent.engineCall (engineParamsOf args) ::
        (postPhase c args.input_file_path (c.runner_output (engineParamsOf args))
          (c.runner_output (engineParamsOf args))).1,
       (postPhase c args.input_file_path (c.runner_output (engineParamsOf args))
          (c.runner_output (engineParamsOf args))).2) := by
    simp [mainRun, hconv]
  refine ⟨hmain, ?_, ?_, ?_⟩
  · intro a b hm
    rw [hmain] at hm
    rcases List.mem_cons.mp hm with hh | hh
    · exact PipeEvent.noConfusion hh
    · exact postPhase_self_no_encode c args.input_file_path _ a b hh
  · intro q hm
    rw [hmain] at hm
    rcases List.mem_cons.mp hm with hh | hh
    · exact PipeEvent.noConfusion hh
    · exact postPhase_self_no_unlink c args.input_file_path _ q hh
  · intro out hout
    rw [hmain] at hout
    exact postPhase_ok_out c args.input_file_path _ _ out hout

/-- C7 witness: the concrete request `song.wav -l 180 -f WAV` with all
collaborators succeeding ends with the raw path as final artifact and with
no encode and no unlink event. -/
theorem spec_c7_non_m4a_no_transcode_witness :
    (PipeEvent.encodeCall sampleRaw sampleRaw ∉
        (mainRun sampleCollab { sampleResolved with format := .WAV }).1) ∧
    (PipeEvent.unlink sampleRaw ∉
        (mainRun sampleCollab { sampleResolved with format := .WAV }).1) ∧
    (mainRun sampleCollab { sampleResolved with format := .WAV }).2 = .ok sampleRaw := by
  have h := spec_c7_non_m4a_no_transcode sampleCollab
    { sampleResolved with format := .WAV } (by decide)
  exact ⟨h.2.1 sampleRaw sampleRaw, h.2.2.1 sampleRaw, by rw [h.1]; rfl⟩

/-- C1: for an M4A request whose raw artifact has a non-empty name and a
suffix other than `.m4a` (as the engine, invoked with format WAV, produces),
the final artifact is the raw path with its extension replaced by `.m4a`,
that path differs from the raw path and carries suffix `.m4a`, and when the
collaborators succeed the run is exactly: engine call, encode, metadata
copy, timestamp copy, and only then deletion of the raw path (the deletion
present exactly because the two paths differ). -/
theorem spec_c1_m4a_pipeline (c : Collab) (args : ProgramArgsNamespace)
    (hfmt : args.format = AudioFormat.M4A)
    (hname : (c.runner_output (engineParamsOf args)).name ≠ [])
    (hsuf : (c.runner_output (engineParamsOf args)).suffix ≠ ['.', 'm', '4', 'a'])
    (henc : c.encode_ok = true) (hm : c.metadata = .ok)
    (hfd : c.filedate_ok = true) (hun : c.unlink_ok = true) :
    ∃ out,
      (c.runner_output (engineParamsOf args)).with_suffix ['.', 'm', '4', 'a'] = some out ∧
      out ≠ c.runner_output (engineParamsOf args) ∧
      out.suffix = ['.', 'm', '4', 'a'] ∧
      mainRun c args =
        ([.engineCall (engineParamsOf args),
          .encodeCall (c.runner_output (engineParamsOf args)) out,
          .metadataCopy args.input_file_path out,
          .filedateCopy args.input_file_path out,
          .unlink (c.runner_output (engineParamsOf args))], .ok out) := by
  cases hq : c.runner_output (engineParamsOf args) with
  | root => rw [hq] at hname; exact absurd rfl hname
  | child p n =>
    rw [hq] at hname hsuf
    have hn : n ≠ [] := by simpa [PyPath.name] using hname
    have hs : nameSuffix n ≠ ['.', 'm', '4', 'a'] := by
      simpa [PyPath.suffix, PyPath.name] using hsuf
    obtain ⟨w, hws, hwn, hwsuf⟩ := with_suffix_m4a_props p n hn hs
    have hlow : ('.' :: List.map Char.toLower (AudioFormat.str AudioFormat.M4A).data) =
        ['.', 'm', '4', 'a'] := by decide
    have hconv : convertPhase c args (PyPath.child p n) =
        ([.encodeCall (PyPath.child p n) (PyPath.child p w)], .ok (PyPath.child p w)) := by
      simp [convertPhase, hfmt, hlow, hws, henc]
    have hne : PyPath.child p w ≠ PyPath.child p n := by simp [hwn]
    have hpost : postPhase c args.input_file_path (PyPath.child p w) (PyPath.child p n) =
        ([.metadataCopy args.input_file_path (PyPath.child p w),
          .filedateCopy args.input_file_path (PyPath.child p w),
          .unlink (PyPath.child p n)], .ok (PyPath.child p w)) := by
      simp [postPhase, hm, hfd, hun, hne]
    refine ⟨PyPath.child p w, ?_, ?_, ?_, ?_⟩
    · exact hws
    · simp [hwn]
    · simpa [PyPath.suffix, PyPath.name] using hwsuf
    · simp [mainRun, hq, hconv, hpost]

/-- C1 witness: the concrete M4A run on `song.wav` with the engine returning
`ext.wav`: the final artifact is `ext.m4a` and the raw file is deleted last. -/
theorem spec_c1_m4a_pipeline_witness :
    ∃ out,
      (sampleCollab.runner_output (engineParamsOf sampleResolved)).with_suffix
          ['.', 'm', '4', 'a'] = some out ∧
      out ≠ sampleCollab.runner_output (engineParamsOf sampleResolved) ∧
      out.suffix = ['.', 'm', '4', 'a'] ∧
      mainRun sampleCollab sampleResolved =
        ([.engineCall (engineParamsOf sampleResolved),
          .encodeCall (sampleCollab.runner_output (engineParamsOf sampleResolved)) out,
          .metadataCopy sampleResolved.input_file_path out,
          .filedateCopy sampleResolved.input_file_path out,
          .unlink (sampleCollab.runner_output (engineParamsOf sampleResolved))], .ok out) :=
  spec_c1_m4a_pipeline sampleCollab sampleResolved rfl (by decide) (by decide) rfl rfl rfl rfl
